import Mathlib

/-!
Verification of the Maestro capture pipeline: shallow embedding of the
product-lookup service, barcode validation, resource manager, camera service,
barcode scanning loop, capture orchestrator handlers and meal storage,
with theorems settling the specification claims.
-/

set_option linter.unusedVariables false
set_option linter.unusedTactic false

namespace Maestro

/-- JavaScript Math.round on exact rationals: round half toward positive
infinity, computed as an integer floor division so that the kernel can
evaluate it; jsRound_eq_floor below shows it equals the floor form. -/
def jsRound (q : ℚ) : ℤ := (2 * q.num + (q.den : ℤ)) / (2 * (q.den : ℤ))

/-- Per-100g nutrition record (ProductData.nutrition in lib/food-db.ts). -/
structure Nutrition where
  calories : ℚ
  carbs : ℚ
  fat : ℚ
  protein : ℚ
  fiber : ℚ
deriving Repr, DecidableEq

/-- Product source tag ('barcode' | 'search' | 'manual'). -/
inductive ProductSource where
  | barcode
  | search
  | manual
deriving Repr, DecidableEq

/-- ProductData from lib/food-db.ts. -/
structure ProductData where
  name : String
  brand : Option String
  barcode : String
  source : ProductSource
  nutrition : Nutrition
  imageUrl : Option String
  verified : Bool
deriving Repr, DecidableEq

/-- Quality level ('low' | 'medium' | 'high'). -/
inductive QualityLevel where
  | low
  | medium
  | high
deriving Repr, DecidableEq

/-- ProductQuality from services/food-lookup-service.ts. -/
structure ProductQuality where
  score : ℤ
  level : QualityLevel
  issues : List String
  strengths : List String
deriving Repr, DecidableEq

/-- JavaScript truthiness of an optional string field: undefined and the empty
string are both falsy. -/
def strTruthy : Option String → Bool
  | none => false
  | some s => s != ""

/-- Number of the five nutrition fields with a strictly positive value:
nutritionFields.filter(value => value > 0).length in assessProductQuality. -/
def completeFields (n : Nutrition) : ℕ :=
  ([n.calories, n.carbs, n.fat, n.protein, n.fiber].filter (fun v => decide (0 < v))).length

/-- Shallow embedding of FoodLookupService.assessProductQuality: name longer
than 3 characters scores 20, truthy brand 15, nutrition completeness
(completeFields / 5) * 40, truthy imageUrl 10, verified 15; level from the
unrounded score (>= 80 high, >= 60 medium, else low); returned score is
Math.round of the accumulated score. -/
def assessProductQuality (product : ProductData) : ProductQuality :=
  let nameOk : Bool := decide (3 < product.name.length)
  let brandOk : Bool := strTruthy product.brand
  let nutritionScore : ℚ := ((completeFields product.nutrition : ℚ) / 5) * 40
  let imageOk : Bool := strTruthy product.imageUrl
  let score : ℚ :=
    (if nameOk then 20 else 0) + (if brandOk then 15 else 0) + nutritionScore
      + (if imageOk then 10 else 0) + (if product.verified then 15 else 0)
  let issues : List String :=
    (if nameOk then [] else ["Missing or poor product name"])
      ++ (if brandOk then [] else ["No brand information"])
      ++ (if (30 : ℚ) ≤ nutritionScore then []
          else if (20 : ℚ) ≤ nutritionScore then ["Some nutrition values missing"]
          else ["Incomplete nutrition data"])
      ++ (if imageOk then [] else ["No product image"])
      ++ (if product.verified then [] else ["Unverified product data"])
  let strengths : List String :=
    (if nameOk then ["Product name available"] else [])
      ++ (if brandOk then ["Brand information available"] else [])
      ++ (if (30 : ℚ) ≤ nutritionScore then ["Complete nutrition data"]
          else if (20 : ℚ) ≤ nutritionScore then ["Most nutrition data available"]
          else [])
      ++ (if imageOk then ["Product image available"] else [])
      ++ (if product.verified then ["Verified product data"] else [])
  let level : QualityLevel :=
    if (80 : ℚ) ≤ score then QualityLevel.high
    else if (60 : ℚ) ≤ score then QualityLevel.medium
    else QualityLevel.low
  ⟨jsRound score, level, issues, strengths⟩

/-- EnhancedProductData from services/food-lookup-service.ts. -/
structure EnhancedProductData extends ProductData where
  quality : ProductQuality
  confidence : ℤ
  cached : Bool
deriving Repr, DecidableEq

/-- Shallow embedding of FoodLookupService.enhanceProductData: confidence is
Math.round(100 * (score / 100) * factor) with factor 0.95 for barcode source,
0.8 for search, 1 for manual. -/
def enhanceProductData (product : ProductData) (cached : Bool)
    (source : ProductSource) : EnhancedProductData :=
  let quality := assessProductQuality product
  let confidence0 : ℚ := (quality.score : ℚ) / 100
  let confidence1 : ℚ :=
    match source with
    | ProductSource.barcode => confidence0 * (95 / 100)
    | ProductSource.search => confidence0 * (80 / 100)
    | ProductSource.manual => confidence0
  { toProductData := { product with source := source }
    quality := quality
    confidence := jsRound (confidence1 * 100)
    cached := cached }

/-- Characters removed by the cleaning step barcode.replace of the spaces-and-
dashes character class in validateBarcode (lib/food-db.ts). -/
def isStrippedChar (c : Char) : Bool := c == '-' || c.isWhitespace

/-- The cleaning step of validateBarcode: remove spaces and dashes. -/
def cleanBarcode (barcode : String) : List Char :=
  barcode.toList.filter (fun c => !(isStrippedChar c))

/-- Shallow embedding of validateBarcode in lib/food-db.ts: strips spaces and
dashes, then requires cleaned length in 8, 12, 13 and digits only. -/
def validateBarcode (barcode : String) : Bool :=
  let clean := cleanBarcode barcode
  (clean.length == 8 || clean.length == 12 || clean.length == 13)
    && clean.all Char.isDigit

/-! Integer closed forms for the quality assessment, used to evaluate it. -/

/-- Integer closed form of the assessProductQuality score. -/
def scoreN (p : ProductData) : ℕ :=
  (if decide (3 < p.name.length) then 20 else 0)
    + (if strTruthy p.brand then 15 else 0)
    + 8 * completeFields p.nutrition
    + (if strTruthy p.imageUrl then 10 else 0)
    + (if p.verified then 15 else 0)

/-- Integer closed form of the assessProductQuality level. -/
def levelN (p : ProductData) : QualityLevel :=
  if 80 ≤ scoreN p then QualityLevel.high
  else if 60 ≤ scoreN p then QualityLevel.medium
  else QualityLevel.low

/-- Integer closed form of the assessProductQuality issues list. -/
def issuesN (p : ProductData) : List String :=
  (if decide (3 < p.name.length) then [] else ["Missing or poor product name"])
    ++ (if strTruthy p.brand then [] else ["No brand information"])
    ++ (if 30 ≤ 8 * completeFields p.nutrition then []
        else if 20 ≤ 8 * completeFields p.nutrition then ["Some nutrition values missing"]
        else ["Incomplete nutrition data"])
    ++ (if strTruthy p.imageUrl then [] else ["No product image"])
    ++ (if p.verified then [] else ["Unverified product data"])

/-- Integer closed form of the assessProductQuality strengths list. -/
def strengthsN (p : ProductData) : List String :=
  (if decide (3 < p.name.length) then ["Product name available"] else [])
    ++ (if strTruthy p.brand then ["Brand information available"] else [])
    ++ (if 30 ≤ 8 * completeFields p.nutrition then ["Complete nutrition data"]
        else if 20 ≤ 8 * completeFields p.nutrition then ["Most nutrition data available"]
        else [])
    ++ (if strTruthy p.imageUrl then ["Product image available"] else [])
    ++ (if p.verified then ["Verified product data"] else [])

/-- Number of the five nutrition fields that are nonzero (the wording of the
claim about quality scoring, as opposed to the strictly-positive test in the
code); used only to compare the claim against the source. -/
def nonzeroFields (n : Nutrition) : ℕ :=
  ([n.calories, n.carbs, n.fat, n.protein, n.fiber].filter (fun v => v != 0)).length

/-- Modelled from the claim wording for comparison with the source: name
presence 20 points, brand presence 15, nutrition completeness proportional
to the fraction of the five nutrition fields that are nonzero (8 points per
field), image presence 10, verified 15. -/
def claimScore (p : ProductData) : ℕ :=
  (if p.name != "" then 20 else 0)
    + (if strTruthy p.brand then 15 else 0)
    + 8 * nonzeroFields p.nutrition
    + (if strTruthy p.imageUrl then 10 else 0)
    + (if p.verified then 15 else 0)

/-! The product-lookup service: cache, request queue, retries. -/

/-- Cache max age: 24 hours in milliseconds. -/
def cacheMaxAge : ℤ := 24 * 60 * 60 * 1000

/-- Cache entry as stored in the FoodLookupService cache map. -/
structure CacheEntry where
  product : EnhancedProductData
  timestamp : ℤ
deriving Repr, DecidableEq

/-- Lookup in an association list modelling a JS Map (first match wins). -/
def lookupKey {α : Type} : List (String × α) → String → Option α
  | [], _ => none
  | (k2, v) :: rest, k => if k2 = k then some v else lookupKey rest k

/-- Map.delete: remove every entry with the given key. -/
def eraseKey {α : Type} (l : List (String × α)) (k : String) : List (String × α) :=
  l.filter (fun p => !(p.1 == k))

/-- Map.set: replace the value in place if the key exists, append otherwise. -/
def setKey {α : Type} : List (String × α) → String → α → List (String × α)
  | [], k, v => [(k, v)]
  | (k2, v2) :: rest, k, v =>
    if k2 = k then (k2, v) :: rest else (k2, v2) :: setKey rest k v

/-- LookupResult from services/food-lookup-service.ts. -/
structure LookupResult where
  success : Bool
  product : Option EnhancedProductData
  error : Option String
  fallbackSuggestions : Option (List String)
deriving Repr, DecidableEq

/-- The invalid-format failure returned by lookupByBarcode before any
network activity. -/
def invalidFormatResult : LookupResult :=
  ⟨false, none, some "Invalid barcode format",
    some ["Try scanning again", "Enter product manually"]⟩

/-- The not-found failure returned by performLookup when the database
returns null. -/
def notFoundResult : LookupResult :=
  ⟨false, none, some "Product not found in database",
    some ["Try scanning again in better lighting",
      "Check if barcode is complete and undamaged",
      "Search for product by name instead",
      "Enter nutrition information manually"]⟩

/-- The quality-too-low failure returned by performLookup under
requireHighQuality. -/
def qualityTooLowResult : LookupResult :=
  ⟨false, none, some "Product data quality too low",
    some ["Use nutrition label scanning instead",
      "Enter nutrition information manually"]⟩

/-- The failure returned by performLookup after all retries failed. -/
def networkFailureResult (lastError : Option String) : LookupResult :=
  ⟨false, none, some (lastError.getD "Unknown error"),
    some ["Check your internet connection", "Try again in a moment",
      "Use nutrition label scanning instead",
      "Enter product information manually"]⟩

/-- Successful lookup result. -/
def successResult (p : EnhancedProductData) : LookupResult := ⟨true, some p, none, none⟩

/-- Mutable state of the FoodLookupService: the cache map, the in-flight
request queue keyed by barcode, and a ghost counter of how many underlying
lookups (shared performLookup promises) were ever started. -/
structure ServiceState where
  cache : List (String × CacheEntry)
  requestQueue : List String
  underlyingLookups : ℕ
deriving Repr, DecidableEq

/-- Shallow embedding of FoodLookupService.getCachedProduct: a missing key
is a miss; an entry with now - timestamp > cacheMaxAge is deleted and
reported as a miss; otherwise the stored product is returned. -/
def getCachedProduct (st : ServiceState) (barcode : String) (now : ℤ) :
    Option EnhancedProductData × ServiceState :=
  match lookupKey st.cache barcode with
  | none => (none, st)
  | some entry =>
    if cacheMaxAge < now - entry.timestamp then
      (none, { st with cache := eraseKey st.cache barcode })
    else (some entry.product, st)

/-- Shallow embedding of FoodLookupService.cleanupCache: drop entries with
timestamp < now - cacheMaxAge. -/
def cleanupCache (st : ServiceState) (now : ℤ) : ServiceState :=
  { st with cache := st.cache.filter (fun p => !(decide (p.2.timestamp < now - cacheMaxAge))) }

/-- Shallow embedding of FoodLookupService.cacheProduct: store the entry,
then sweep expired entries when the cache exceeds 1000 entries. -/
def cacheProduct (st : ServiceState) (barcode : String) (product : EnhancedProductData)
    (now : ℤ) : ServiceState :=
  let st2 := { st with cache := setKey st.cache barcode ⟨product, now⟩ }
  if 1000 < st2.cache.length then cleanupCache st2 now else st2

/-- Outcome of the synchronous prefix of lookupByBarcode (validation, cache
check, request de-duplication), which runs before the first await. -/
inductive EntryOutcome where
  | rejected (result : LookupResult)
  | cacheHit (result : LookupResult)
  | joinedExisting
  | startedNew
deriving Repr, DecidableEq

/-- Shallow embedding of the synchronous prefix of
FoodLookupService.lookupByBarcode: validate the barcode, consult the cache
when enabled, join an in-flight request for the same barcode if one exists,
otherwise start a new underlying lookup and enqueue it. All of this happens
inside one microtask span, before the first await, so it is atomic under the
single-threaded event loop. -/
def lookupEntry (st : ServiceState) (barcode : String) (now : ℤ) (enableCache : Bool) :
    EntryOutcome × ServiceState :=
  if validateBarcode barcode = false then (EntryOutcome.rejected invalidFormatResult, st)
  else
    match (if enableCache then getCachedProduct st barcode now else (none, st)) with
    | (some hit, st2) =>
      (EntryOutcome.cacheHit (successResult { hit with cached := true }), st2)
    | (none, st2) =>
      if barcode ∈ st2.requestQueue then (EntryOutcome.joinedExisting, st2)
      else
        (EntryOutcome.startedNew,
          { st2 with
            requestQueue := barcode :: st2.requestQueue
            underlyingLookups := st2.underlyingLookups + 1 })

/-- Shallow embedding of the continuation of lookupByBarcode after the shared
performLookup promise resolves: cache a successful product when caching is
enabled, and in the finally block remove the barcode from the request queue. -/
def lookupComplete (st : ServiceState) (barcode : String) (result : LookupResult)
    (enableCache : Bool) (now : ℤ) : ServiceState :=
  let st2 :=
    match result.product with
    | some p =>
      if result.success && enableCache then cacheProduct st barcode p now else st
    | none => st
  { st2 with requestQueue := st2.requestQueue.erase barcode }

/-- One network attempt as seen by performLookup: the underlying lookupBarcode
promise either resolves (with a product or null for not-found) or rejects,
after the given number of milliseconds. -/
inductive NetAttempt where
  | resolves (product : Option ProductData) (time : ℕ)
  | rejects (msg : String) (time : ℕ)
deriving Repr, DecidableEq

/-- Time at which a network attempt settles. -/
def netTime : NetAttempt → ℕ
  | NetAttempt.resolves _ t => t
  | NetAttempt.rejects _ t => t

/-- The Promise.race of one lookup attempt against the timeout rejection:
whichever settles first wins; at or after timeoutMs the timeout rejection
has already fired. -/
def raceOutcome (a : NetAttempt) (timeoutMs : ℕ) : Except String (Option ProductData) :=
  match a with
  | NetAttempt.resolves p t =>
    if t < timeoutMs then Except.ok p else Except.error "Request timeout"
  | NetAttempt.rejects m t =>
    if t < timeoutMs then Except.error m else Except.error "Request timeout"

/-- Whether the raced attempt ended in a rejection. -/
def raceIsError (a : NetAttempt) (timeoutMs : ℕ) : Bool :=
  match raceOutcome a timeoutMs with
  | Except.error _ => true
  | Except.ok _ => false

/-- Message of a raced attempt that ended in a rejection. -/
def raceErrMsg (a : NetAttempt) (timeoutMs : ℕ) : String :=
  match raceOutcome a timeoutMs with
  | Except.error m => m
  | Except.ok _ => ""

/-- Exponential backoff delay before retrying: Math.pow(2, attempt) * 1000. -/
def backoffDelay (attempt : ℕ) : ℕ := 2 ^ attempt * 1000

/-- Observable trace of one performLookup call: its result, how many attempts
it made, and the list of backoff delays it waited. -/
structure LookupTrace where
  result : LookupResult
  attempts : ℕ
  delaysMs : List ℕ
deriving Repr, DecidableEq

/-- Body of the performLookup retry loop, one constructor per loop iteration.
The fuel argument is the number of remaining iterations of the bounded for
loop (attempt <= maxRetries); the attempt argument is the current loop index.
A null product returns the not-found failure immediately; a low-quality
product under requireHighQuality returns the quality failure immediately; a
rejection records lastError, waits the backoff delay when attempt < maxRetries,
and continues. -/
def performLookupGo (net : ℕ → NetAttempt) (timeoutMs : ℕ) (requireHighQuality : Bool)
    (maxRetries : ℕ) : ℕ → ℕ → Option String → LookupTrace
  | _, 0, lastError => ⟨networkFailureResult lastError, 0, []⟩
  | attempt, fuel + 1, _lastError =>
    match raceOutcome (net attempt) timeoutMs with
    | Except.ok none => ⟨notFoundResult, 1, []⟩
    | Except.ok (some product) =>
      let enhanced := enhanceProductData product false ProductSource.barcode
      if requireHighQuality && (enhanced.quality.level == QualityLevel.low)
      then ⟨qualityTooLowResult, 1, []⟩
      else ⟨successResult enhanced, 1, []⟩
    | Except.error msg =>
      let rest := performLookupGo net timeoutMs requireHighQuality maxRetries
        (attempt + 1) fuel (some msg)
      ⟨rest.result, rest.attempts + 1,
        (if attempt < maxRetries then [backoffDelay attempt] else []) ++ rest.delaysMs⟩

/-- Shallow embedding of FoodLookupService.performLookup: the for loop runs
attempts 0 through maxRetries. -/
def performLookup (net : ℕ → NetAttempt) (timeoutMs : ℕ) (requireHighQuality : Bool)
    (maxRetries : ℕ) : LookupTrace :=
  performLookupGo net timeoutMs requireHighQuality maxRetries 0 (maxRetries + 1) none

/-! The continuous barcode-scanning loop of useBarcodeDetection. -/

/-- Outcome of a single decode attempt on the video source. -/
inductive DetectOutcome where
  | found (text : String)
  | notFound
  | decodeError (msg : String)
deriving Repr, DecidableEq

/-- State of the useBarcodeDetection hook, with two ghost fields: attemptsMade
counts invocations of detectBarcodeOnce, and maxAttemptsSignaled records
whether the max-scan-attempts onError signal was raised. -/
structure ScanState where
  scanCount : ℕ
  isScanning : Bool
  result : Option String
  error : Option String
  continuousActive : Bool
  attemptsMade : ℕ
  maxAttemptsSignaled : Bool
deriving Repr, DecidableEq

/-- Initial hook state. -/
def initialScanState : ScanState := ⟨0, false, none, none, false, 0, false⟩

/-- State effect of one detectBarcodeOnce call: scanCount is incremented only
on the success path (the updateState carrying the result); the
NotFoundException path and the decode-error path leave scanCount unchanged. -/
def detectOnceEffect (st : ScanState) (outcome : DetectOutcome) : ScanState :=
  match outcome with
  | DetectOutcome.found text =>
    { st with
      result := some text
      isScanning := false
      scanCount := st.scanCount + 1
      attemptsMade := st.attemptsMade + 1 }
  | DetectOutcome.notFound =>
    { st with isScanning := false, attemptsMade := st.attemptsMade + 1 }
  | DetectOutcome.decodeError msg =>
    { st with isScanning := false, error := some msg, attemptsMade := st.attemptsMade + 1 }

/-- stopContinuousScanning: clear the continuous flag and any pending timer,
stop the reader. -/
def stopScanning (st : ScanState) : ScanState :=
  { st with continuousActive := false, isScanning := false }

/-- startContinuousScanning sets the continuous flag and kicks off the loop. -/
def startScanning (st : ScanState) : ScanState := { st with continuousActive := true }

/-- One iteration of the continuousScan closure: when still active, first
check the attempt ceiling (maxScanAttempts > 0 and scanCount >= maxScanAttempts
stops scanning and raises the max-attempts signal), then run one decode
attempt; a successful detection stops continuous scanning, otherwise the next
iteration is scheduled. -/
def continuousScanStep (maxScanAttempts : ℕ) (st : ScanState) (outcome : DetectOutcome) :
    ScanState :=
  if st.continuousActive = false then st
  else if 0 < maxScanAttempts ∧ maxScanAttempts ≤ st.scanCount then
    { stopScanning st with maxAttemptsSignaled := true }
  else
    let st2 := detectOnceEffect st outcome
    match outcome with
    | DetectOutcome.found _ => stopScanning st2
    | _ => st2

/-- Run the continuous-scanning loop for n scheduled iterations, taking the
per-iteration decode outcomes from the given stream. -/
def runScanLoop (maxScanAttempts : ℕ) (outcomes : ℕ → DetectOutcome) : ℕ → ScanState
  | 0 => startScanning initialScanState
  | n + 1 => continuousScanStep maxScanAttempts (runScanLoop maxScanAttempts outcomes n) (outcomes n)

/-- A video source on which no barcode is ever detected: every decode attempt
reports not-found. -/
def allNotFound : ℕ → DetectOutcome := fun _ => DetectOutcome.notFound

/-! The capture orchestrator handlers of useCapture. -/

/-- Capture modes. -/
inductive CaptureMode where
  | barcode
  | nutritionLabel
  | aiAnalysis
  | manual
deriving Repr, DecidableEq

/-- CaptureState of the useCapture hook, plus a scanningActive field tracking
whether the continuous-scanning loop is running. -/
structure CaptureState where
  mode : CaptureMode
  isActive : Bool
  isProcessing : Bool
  autoDetectionComplete : Bool
  showModeSelection : Bool
  lookupResult : Option LookupResult
  error : Option String
  scanningActive : Bool
deriving Repr, DecidableEq

/-- Initial capture state of useCapture. -/
def initialCaptureState : CaptureState :=
  ⟨CaptureMode.barcode, false, false, false, false, none, none, false⟩

/-- State effect of startAutoDetection: reset the flags and start continuous
scanning. The 3-second setTimeout is armed here; its callback closes over
the CaptureState value of the render that created it, so the guard inside
the callback later reads that armed snapshot, not the state at fire time
(see autoDetectionTimeoutHandler). -/
def startAutoDetection (st : CaptureState) : CaptureState :=
  { st with
    mode := CaptureMode.barcode
    autoDetectionComplete := false
    showModeSelection := false
    error := none
    scanningActive := true }

/-- State effect of the auto-detection timeout callback. The setTimeout
closure lexically captures the CaptureState of the render in which the
timeout was armed (a stale React closure), so its guard reads that armed
snapshot, not the live state at fire time: when the snapshot shows
auto-detection incomplete and no lookup result, the callback stops
continuous scanning, marks auto-detection complete and shows the manual
mode selection on the live state; otherwise it does nothing. The guard
therefore cannot see a lookup result that arrived during the 3-second
window. -/
def autoDetectionTimeoutHandler (armed live : CaptureState) : CaptureState :=
  if armed.autoDetectionComplete = false ∧ armed.lookupResult = none then
    { live with
      scanningActive := false
      autoDetectionComplete := true
      showModeSelection := true }
  else live

/-- State effect of the start of handleBarcodeDetected, before the lookup is
awaited: mark processing and clear any prior error. No completed-check is
performed here. -/
def handleBarcodeDetectedStart (st : CaptureState) : CaptureState :=
  { st with isProcessing := true, error := none }

/-- State effect of handleBarcodeDetected once the lookup result arrives:
store the result, mark auto-detection complete, and show the manual mode
selection exactly when the lookup failed. No completed-check is performed
here either. -/
def handleBarcodeDetectedComplete (result : LookupResult) (st : CaptureState) : CaptureState :=
  { st with
    lookupResult := some result
    isProcessing := false
    autoDetectionComplete := true
    showModeSelection := !result.success }

/-! The resource manager of lib/resource-manager.ts. -/

/-- Kinds of managed resources. -/
inductive ResourceType where
  | mediaStream
  | scanner
  | timerHandle
deriving Repr, DecidableEq

/-- A managed resource; releaseFails records whether the underlying release
action (track.stop, scanner.reset, clearTimeout) throws when invoked. -/
structure ManagedResource where
  rtype : ResourceType
  releaseFails : Bool
deriving Repr, DecidableEq

/-- The underlying release action of a managed resource. -/
def releaseUnderlying (r : ManagedResource) : Except String Unit :=
  if r.releaseFails then Except.error "release failed" else Except.ok ()

/-- The cleanup closure built by registerMediaStream, registerScanner and
registerTimeout: it wraps the underlying release in try/catch, logging and
swallowing any failure, so the registered closure itself never throws. -/
def registeredCleanup (r : ManagedResource) : Except String Unit :=
  match releaseUnderlying r with
  | Except.ok _ => Except.ok ()
  | Except.error _ => Except.ok ()

/-- Resource map of the ResourceManager. -/
structure RMState where
  resources : List (String × ManagedResource)
deriving Repr, DecidableEq

/-- Registration stores the resource under its id (Map.set). -/
def RMState.register (st : RMState) (id : String) (r : ManagedResource) : RMState :=
  ⟨setKey st.resources id r⟩

/-- Shallow embedding of ResourceManager.cleanup: a missing id returns false;
otherwise the registered closure is invoked inside try/catch - on success the
entry is deleted and true returned, on a thrown closure the entry is kept and
false returned. Exceptions are modelled by the Except channel of the closure;
the method itself is total and never throws. -/
def RMState.cleanup (st : RMState) (id : String) : Bool × RMState :=
  match lookupKey st.resources id with
  | none => (false, st)
  | some r =>
    match registeredCleanup r with
    | Except.ok _ => (true, ⟨eraseKey st.resources id⟩)
    | Except.error _ => (false, st)

/-- Shallow embedding of ResourceManager.cleanupAll: capture the current size,
clean up every id in the map, and report the captured size. -/
def RMState.cleanupAll (st : RMState) : ℕ × RMState :=
  (st.resources.length,
    (st.resources.map Prod.fst).foldl (fun acc id => (RMState.cleanup acc id).2) st)

/-! The camera service of services/camera-service.ts. -/

/-- Classified CameraError. -/
structure CameraError where
  name : String
  message : String
  fallbackAvailable : Bool
  userAction : Option String
deriving Repr, DecidableEq

/-- Shallow embedding of CameraService.createCameraError: classify a raw
platform error by its name into one of six fixed user-facing errors. -/
def createCameraError (errName : String) : CameraError :=
  if errName = "NotAllowedError" then
    ⟨"NotAllowedError",
      "Camera permission denied. Please enable camera access in your browser settings.",
      true, some "Enable camera permission and refresh the page"⟩
  else if errName = "NotFoundError" then
    ⟨"NotFoundError", "No camera found on this device.",
      true, some "You can upload a photo instead"⟩
  else if errName = "NotReadableError" then
    ⟨"NotReadableError", "Camera is being used by another application.",
      false, some "Close other camera applications and try again"⟩
  else if errName = "OverconstrainedError" then
    ⟨"OverconstrainedError", "Camera does not support required features.",
      true, some "Using basic camera mode"⟩
  else if errName = "AbortError" then
    ⟨"AbortError", "Camera access was interrupted.",
      true, some "Please try again"⟩
  else
    ⟨"UnknownError", "An unexpected camera error occurred.",
      true, some "You can upload a photo instead"⟩

/-- The six classified camera errors. -/
def classifiedCameraErrors : List CameraError :=
  [createCameraError "NotAllowedError", createCameraError "NotFoundError",
    createCameraError "NotReadableError", createCameraError "OverconstrainedError",
    createCameraError "AbortError", createCameraError "UnknownError"]

/-- State of the CameraService: the registered id of the active stream plus
the resource-manager map it registers into. -/
structure CamState where
  activeStreamId : Option String
  rm : RMState
deriving Repr, DecidableEq

/-- Shallow embedding of CameraService.stopCamera: release the registered
stream resource, if any; idempotent. -/
def stopCamera (st : CamState) : CamState :=
  match st.activeStreamId with
  | some id => ⟨none, (RMState.cleanup st.rm id).2⟩
  | none => st

/-- Shallow embedding of CameraService.startCamera. The two Except arguments
are the outcomes of getUserMedia under optimal and minimal constraints, the
error carrying the platform error name. Any existing stream is stopped first;
the optimal attempt is tried, on failure the minimal attempt is tried exactly
once; a successful acquisition is registered under the fixed logical id of its
path; when both fail the classified camera error for the fallback failure is
raised, never the raw platform error. -/
def startCamera (st : CamState) (optimalAttempt minimalAttempt : Except String Unit) :
    Except CameraError CamState :=
  let st1 := stopCamera st
  match optimalAttempt with
  | Except.ok _ =>
    Except.ok
      ⟨some "primary_camera",
        RMState.register st1.rm "primary_camera" ⟨ResourceType.mediaStream, false⟩⟩
  | Except.error _ =>
    match minimalAttempt with
    | Except.ok _ =>
      Except.ok
        ⟨some "fallback_camera",
          RMState.register st1.rm "fallback_camera" ⟨ResourceType.mediaStream, false⟩⟩
    | Except.error e2 => Except.error (createCameraError e2)

/-! Meal storage of lib/meal-storage.ts. -/

/-- Meal slots. -/
inductive MealType where
  | breakfast
  | lunch
  | dinner
  | snack
deriving Repr, DecidableEq

/-- MealEntry from the meal-storage module. -/
structure MealEntry where
  id : String
  foodName : String
  brand : Option String
  barcode : Option String
  servings : ℚ
  nutrition : Nutrition
  addedAt : ℤ
  source : ProductSource
deriving Repr, DecidableEq

/-- Meal from the meal-storage module. -/
structure Meal where
  id : String
  mealType : MealType
  date : String
  entries : List MealEntry
  totalNutrition : Nutrition
deriving Repr, DecidableEq

/-- Zero nutrition totals. -/
def zeroNutrition : Nutrition := ⟨0, 0, 0, 0, 0⟩

/-- Component-wise sum of two nutrition records. -/
def addNutrition (a b : Nutrition) : Nutrition :=
  ⟨a.calories + b.calories, a.carbs + b.carbs, a.fat + b.fat,
    a.protein + b.protein, a.fiber + b.fiber⟩

/-- Shallow embedding of calculateMealNutrition: reduce over the entries,
summing each nutrition component, starting from zero. -/
def calculateMealNutrition (entries : List MealEntry) : Nutrition :=
  entries.foldl (fun total e => addNutrition total e.nutrition) zeroNutrition

/-- Shallow embedding of getOrCreateMeal: find the meal for the slot and date,
or create an empty one with the given fresh id. -/
def getOrCreateMeal (meals : List Meal) (mealType : MealType) (today : String)
    (newMealId : String) : Meal :=
  match meals.find? (fun m => decide (m.mealType = mealType) && decide (m.date = today)) with
  | some m => m
  | none => ⟨newMealId, mealType, today, [], zeroNutrition⟩

/-- Replace the first meal with the given id, keeping the rest; models the
in-place mutation of the found meal object followed by saveMeals. -/
def replaceMealById : List Meal → String → Meal → List Meal
  | [], _, _ => []
  | m :: rest, mid, meal =>
    if m.id = mid then meal :: rest else m :: replaceMealById rest mid meal

/-- Shallow embedding of addFoodToMeal: build the entry, append it to the
found-or-created meal, recompute the meal totals from the entry list, then
replace the meal in the list (or push it if it was newly created). Returns the
affected meal and the updated meal list. -/
def addFoodToMeal (meals : List Meal) (product : EnhancedProductData) (mealType : MealType)
    (servings : ℚ) (totalNutrition : Nutrition) (today : String)
    (newMealId newEntryId : String) (nowMs : ℤ) : Meal × List Meal :=
  let meal := getOrCreateMeal meals mealType today newMealId
  let entry : MealEntry :=
    ⟨newEntryId, product.name, product.brand, some product.barcode,
      servings, totalNutrition, nowMs, product.source⟩
  let meal2 := { meal with entries := meal.entries ++ [entry] }
  let meal3 := { meal2 with totalNutrition := calculateMealNutrition meal2.entries }
  let updated :=
    if meals.any (fun m => decide (m.id = meal3.id)) then replaceMealById meals meal3.id meal3
    else meals ++ [meal3]
  (meal3, updated)

/-- Shallow embedding of removeFoodFromMeal: find the meal by id (false when
missing), filter the entry out, recompute the totals from the remaining
entries, and save. -/
def removeFoodFromMeal (meals : List Meal) (mealId entryId : String) : Bool × List Meal :=
  match meals.find? (fun m => decide (m.id = mealId)) with
  | none => (false, meals)
  | some meal =>
    let meal2 := { meal with entries := meal.entries.filter (fun e => !(decide (e.id = entryId))) }
    let meal3 := { meal2 with totalNutrition := calculateMealNutrition meal2.entries }
    (true, replaceMealById meals mealId meal3)

/-- The affected meal as rebuilt by removeFoodFromMeal: the found meal with
the entry filtered out and the totals recomputed from the remaining
entries. -/
def removedMeal (meal : Meal) (entryId : String) : Meal :=
  { meal with
    entries := meal.entries.filter (fun e => !(decide (e.id = entryId)))
    totalNutrition :=
      calculateMealNutrition (meal.entries.filter (fun e => !(decide (e.id = entryId)))) }

/-- The invariant claimed for meal storage: the stored totals equal the
component-wise sums over the entry list. -/
def nutritionInvariant (m : Meal) : Prop :=
  m.totalNutrition =
    ⟨(m.entries.map (fun e => e.nutrition.calories)).sum,
      (m.entries.map (fun e => e.nutrition.carbs)).sum,
      (m.entries.map (fun e => e.nutrition.fat)).sum,
      (m.entries.map (fun e => e.nutrition.protein)).sum,
      (m.entries.map (fun e => e.nutrition.fiber)).sum⟩

/-! Concrete sample data used by counterexamples and witnesses. -/

/-- A complete, verified product with all five nutrition fields positive. -/
def sampleFullProduct : ProductData :=
  { name := "Granola Cereal"
    brand := some "Acme Foods"
    barcode := "049000028911"
    source := ProductSource.barcode
    nutrition := ⟨450, 64, 15, 10, 7⟩
    imageUrl := some "https://img.example.org/granola.jpg"
    verified := true }

/-- A product whose name is present but no longer than 3 characters and whose
fiber value is negative (nonzero but not strictly positive): it separates the
claimed scoring formula from the implemented one. -/
def shortNameProduct : ProductData :=
  { name := "Oat"
    brand := some "Acme Foods"
    barcode := "049000028911"
    source := ProductSource.barcode
    nutrition := ⟨1, 1, 1, 1, -1⟩
    imageUrl := some "https://img.example.org/oat.jpg"
    verified := true }

/-- A concrete successful lookup result. -/
def sampleSuccessResult : LookupResult :=
  successResult (enhanceProductData sampleFullProduct false ProductSource.barcode)

/-- A concrete stored meal with a single entry, used by witnesses. -/
def sampleMeal : Meal :=
  ⟨"meal1", MealType.breakfast, "2026-10-11",
    [⟨"entry1", "Granola Cereal", some "Acme Foods", some "049000028911",
      1, ⟨250, 50, 12, 20, 7⟩, 0, ProductSource.barcode⟩],
    ⟨250, 50, 12, 20, 7⟩⟩

/-!
Theorems. First general-purpose lemmas about the embedded definitions,
then one theorem per specification claim (with witnesses and
counterexamples where applicable).
-/

theorem jsRound_natCast (n : ℕ) : jsRound ((n : ℕ) : ℚ) = n := by
  simp only [jsRound, Rat.num_natCast, Rat.den_natCast, Nat.cast_one, mul_one]
  omega

theorem jsRound_intCast (n : ℤ) : jsRound ((n : ℤ) : ℚ) = n := by
  simp only [jsRound, Rat.num_intCast, Rat.den_intCast, Nat.cast_one, mul_one]
  omega

/-- The integer-division form of jsRound agrees with Math.round as
floor of q + 1/2. -/
theorem jsRound_eq_floor (q : ℚ) : jsRound q = ⌊q + 1 / 2⌋ := by
  have hd : (0 : ℚ) < (q.den : ℚ) := by exact_mod_cast q.pos
  have hq : q * ((q.den : ℚ)) = (q.num : ℚ) := by
    nth_rewrite 1 [← Rat.num_div_den q]
    rw [div_mul_cancel₀]
    exact ne_of_gt hd
  have key : q + 1 / 2 = ((2 * q.num + (q.den : ℤ) : ℤ) : ℚ) / ((2 * (q.den : ℤ) : ℤ) : ℚ) := by
    rw [eq_div_iff (by push_cast; positivity)]
    push_cast
    calc (q + 1 / 2) * (2 * (q.den : ℚ))
        = 2 * (q * ((q.den : ℚ))) + (q.den : ℚ) := by ring
      _ = 2 * (q.num : ℚ) + (q.den : ℚ) := by rw [hq]
  rw [key]
  rw [show ((2 * (q.den : ℤ) : ℤ) : ℚ) = (((2 * q.den : ℕ) : ℕ) : ℚ) by push_cast; ring]
  rw [Rat.floor_intCast_div_natCast]
  simp only [jsRound]
  congr 1

/-- The quality assessment evaluates to the integer closed forms. -/
theorem assessProductQuality_eval (p : ProductData) :
    assessProductQuality p = ⟨(scoreN p : ℤ), levelN p, issuesN p, strengthsN p⟩ := by
  have h8 : ((completeFields p.nutrition : ℚ) / 5) * 40
      = ((8 * completeFields p.nutrition : ℕ) : ℚ) := by push_cast; ring
  have h30 : ((30 : ℚ) ≤ ((completeFields p.nutrition : ℚ) / 5) * 40)
      ↔ 30 ≤ 8 * completeFields p.nutrition := by
    rw [h8, show (30 : ℚ) = ((30 : ℕ) : ℚ) by norm_num, Nat.cast_le]
  have h20 : ((20 : ℚ) ≤ ((completeFields p.nutrition : ℚ) / 5) * 40)
      ↔ 20 ≤ 8 * completeFields p.nutrition := by
    rw [h8, show (20 : ℚ) = ((20 : ℕ) : ℚ) by norm_num, Nat.cast_le]
  have hS : (if decide (3 < p.name.length) then (20 : ℚ) else 0)
      + (if strTruthy p.brand then 15 else 0)
      + ((completeFields p.nutrition : ℚ) / 5) * 40
      + (if strTruthy p.imageUrl then 10 else 0)
      + (if p.verified then 15 else 0)
      = ((scoreN p : ℕ) : ℚ) := by
    simp only [scoreN]
    rw [h8]
    cases decide (3 < p.name.length) <;> cases strTruthy p.brand
      <;> cases strTruthy p.imageUrl <;> cases p.verified
      <;> simp <;> push_cast <;> ring
  have h80 : ((80 : ℚ) ≤ ((scoreN p : ℕ) : ℚ)) ↔ 80 ≤ scoreN p := by
    rw [show (80 : ℚ) = ((80 : ℕ) : ℚ) by norm_num, Nat.cast_le]
  have h60 : ((60 : ℚ) ≤ ((scoreN p : ℕ) : ℚ)) ↔ 60 ≤ scoreN p := by
    rw [show (60 : ℚ) = ((60 : ℕ) : ℚ) by norm_num, Nat.cast_le]
  simp only [assessProductQuality, levelN, issuesN, strengthsN]
  rw [hS]
  congr 1
  · rw [jsRound_natCast]
  · simp only [h80, h60]
  · simp only [h30, h20]
  · simp only [h30, h20]

/-- C5. The claim scores name presence 20 points and counts nonzero nutrition
fields; the code scores a name only when it is longer than 3 characters and
counts only strictly positive nutrition fields. shortNameProduct (name "Oat",
fiber -1) scores 100 under the claimed formula but 72 (level medium, not
high) under assessProductQuality. -/
theorem C5_score_counterexample :
    claimScore shortNameProduct = 100
      ∧ (assessProductQuality shortNameProduct).score = 72
      ∧ (assessProductQuality shortNameProduct).level = QualityLevel.medium := by
  refine ⟨by decide, ?_, ?_⟩ <;> rw [assessProductQuality_eval] <;> decide

/-- C5 (amended). assessProductQuality is the deterministic weighted score
with name scored only when longer than 3 characters (20 points), brand
presence 15, 8 points per strictly-positive nutrition field (up to 40),
image presence 10, verified 15, with level high when the score is at least
80 and medium when at least 60; consequently a barcode-sourced product with
a name longer than 3 characters, a brand, all five nutrition fields
positive, an image and verified scores 100, level high, and its derived
confidence (score/100 scaled by 0.95 for barcode source) rounds to 95. -/
theorem C5_quality_scoring :
    (∀ p : ProductData,
        assessProductQuality p = ⟨(scoreN p : ℤ), levelN p, issuesN p, strengthsN p⟩)
      ∧ (assessProductQuality sampleFullProduct).score = 100
      ∧ (assessProductQuality sampleFullProduct).level = QualityLevel.high
      ∧ (enhanceProductData sampleFullProduct false ProductSource.barcode).confidence = 95 := by
  have hfull : assessProductQuality sampleFullProduct =
      ⟨100, QualityLevel.high, [],
        ["Product name available", "Brand information available",
          "Complete nutrition data", "Product image available",
          "Verified product data"]⟩ := by
    rw [assessProductQuality_eval]
    decide
  refine ⟨assessProductQuality_eval, by rw [hfull], by rw [hfull], ?_⟩
  simp only [enhanceProductData, hfull]
  rw [show ((100 : ℤ) : ℚ) / 100 * (95 / 100) * 100 = ((95 : ℤ) : ℚ) by norm_num]
  exact jsRound_intCast 95

theorem lookupKey_setKey_self {α : Type} (l : List (String × α)) (k : String) (v : α) :
    lookupKey (setKey l k v) k = some v := by
  induction l with
  | nil => simp [setKey, lookupKey]
  | cons p rest ih =>
    obtain ⟨k2, v2⟩ := p
    by_cases h : k2 = k
    · simp [setKey, lookupKey, h]
    · simp [setKey, lookupKey, h, ih]

theorem lookupKey_eraseKey_self {α : Type} (l : List (String × α)) (k : String) :
    lookupKey (eraseKey l k) k = none := by
  induction l with
  | nil => simp [eraseKey, lookupKey]
  | cons p rest ih =>
    obtain ⟨k2, v2⟩ := p
    by_cases h : k2 = k
    · simpa [eraseKey, List.filter_cons, h] using ih
    · simpa [eraseKey, List.filter_cons, h, lookupKey] using ih

theorem eraseKey_of_lookupKey_none {α : Type} (l : List (String × α)) (k : String)
    (h : lookupKey l k = none) : eraseKey l k = l := by
  induction l with
  | nil => rfl
  | cons p rest ih =>
    obtain ⟨k2, v2⟩ := p
    by_cases hk : k2 = k
    · simp [lookupKey, hk] at h
    · rw [lookupKey, if_neg hk] at h
      simpa [eraseKey, List.filter_cons, hk] using ih h

theorem lookupKey_filter {α : Type} (l : List (String × α)) (k : String) (v : α)
    (p : String × α → Bool) (hv : p (k, v) = true) (h : lookupKey l k = some v) :
    lookupKey (l.filter p) k = some v := by
  induction l with
  | nil => simp [lookupKey] at h
  | cons q rest ih =>
    obtain ⟨k2, v2⟩ := q
    by_cases hk : k2 = k
    · rw [lookupKey, if_pos hk] at h
      injection h with h
      subst h
      subst hk
      simp [List.filter_cons, hv, lookupKey]
    · rw [lookupKey, if_neg hk] at h
      cases hp : p (k2, v2)
      · simpa [List.filter_cons, hp] using ih h
      · simpa [List.filter_cons, hp, lookupKey, hk] using ih h

/-! Lemmas about barcode cleaning. -/

theorem digit_not_stripped (c : Char) (h : c.isDigit = true) : isStrippedChar c = false := by
  simp only [isStrippedChar, Bool.or_eq_false_iff, beq_eq_false_iff_ne, ne_eq]
  constructor
  · rintro rfl
    exact absurd h (by decide)
  · by_contra hw
    rw [Bool.not_eq_false] at hw
    simp only [Char.isWhitespace, Bool.or_eq_true, decide_eq_true_eq] at hw
    rcases hw with ((rfl | rfl) | rfl) | rfl <;> exact absurd h (by decide)

theorem cleanBarcode_of_digits (b : String) (h : b.toList.all Char.isDigit = true) :
    cleanBarcode b = b.toList := by
  rw [cleanBarcode, List.filter_eq_self]
  intro c hc
  rw [List.all_eq_true] at h
  rw [digit_not_stripped c (h c hc)]
  rfl

/-- C7 (amended). lookupByBarcode rejects, before starting any underlying
lookup, exactly those barcodes whose cleaned form (spaces and dashes removed)
has length outside 8, 12, 13 or contains a non-digit, returning the fixed
invalid-format failure with its two fallback suggestions and leaving the
service state untouched; every digit-only string of length 8, 12 or 13 passes
validation regardless of checksum correctness. -/
theorem C7_barcode_validation :
    (∀ (b : String) (st : ServiceState) (now : ℤ) (c : Bool),
        validateBarcode b = false →
          lookupEntry st b now c = (EntryOutcome.rejected invalidFormatResult, st))
      ∧ (∀ b : String, validateBarcode b = true ↔
          (((cleanBarcode b).length = 8 ∨ (cleanBarcode b).length = 12 ∨
            (cleanBarcode b).length = 13) ∧ (cleanBarcode b).all Char.isDigit = true))
      ∧ (∀ b : String, b.toList.all Char.isDigit = true →
          (b.length = 8 ∨ b.length = 12 ∨ b.length = 13) → validateBarcode b = true) := by
  refine ⟨?_, ?_, ?_⟩
  · intro b st now c h
    simp [lookupEntry, h]
  · intro b
    simp [validateBarcode, Bool.or_eq_true, beq_iff_eq, Bool.and_eq_true, or_assoc]
  · intro b hdig hlen
    have hclean : cleanBarcode b = b.toList := cleanBarcode_of_digits b hdig
    have hlen2 : b.toList.length = b.length := rfl
    rw [validateBarcode]
    simp only [hclean, hlen2, hdig, Bool.and_true, Bool.or_eq_true, beq_iff_eq]
    tauto

/-- Witness for C7: the 5-digit barcode 12345 is rejected with the
invalid-format failure and no underlying lookup, while the digit-only
12-digit barcode 123456789012 passes validation. -/
theorem C7_barcode_validation_witness :
    lookupEntry ⟨[], [], 0⟩ "12345" 0 true
        = (EntryOutcome.rejected invalidFormatResult, ⟨[], [], 0⟩)
      ∧ validateBarcode "123456789012" = true :=
  ⟨C7_barcode_validation.1 "12345" ⟨[], [], 0⟩ 0 true (by decide),
    C7_barcode_validation.2.2 "123456789012" (by decide) (by decide)⟩

/-- C7 (counterexample). The string 1234-5678 has length 9 (not in 8, 12, 13)
and contains a non-digit, yet validateBarcode accepts it (the code strips
spaces and dashes before checking), so lookupByBarcode does not reject it:
on a fresh service state it starts an underlying lookup. -/
theorem C7_counterexample :
    "1234-5678".length = 9
      ∧ ("1234-5678".toList.all Char.isDigit) = false
      ∧ validateBarcode "1234-5678" = true
      ∧ (lookupEntry ⟨[], [], 0⟩ "1234-5678" 0 true).1 = EntryOutcome.startedNew
      ∧ (lookupEntry ⟨[], [], 0⟩ "1234-5678" 0 true).2.underlyingLookups = 1 := by
  refine ⟨by decide, by decide, by decide, by decide, by decide⟩

/-- C1 (counterexample). Concrete trace of the orchestrator handlers
refuting both directions of the claimed race. A detection at t=2.9s whose
lookup completes before the timeout leaves the state with the stored result
and no manual selection; when the timeout fires at t=3.0s its guard reads
the snapshot captured at arming (auto-detection incomplete, no result), so
it passes and the manual mode selection appears anyway - the detection
result did not win. And a detection event processed after the timeout
(handleBarcodeDetected has no completed-check) whose lookup succeeds sets
showModeSelection back to false, overriding the shown manual selection. -/
theorem C1_counterexample :
    sampleSuccessResult.success = true
      ∧ (handleBarcodeDetectedComplete sampleSuccessResult
          (handleBarcodeDetectedStart (startAutoDetection initialCaptureState))).lookupResult
        = some sampleSuccessResult
      ∧ (handleBarcodeDetectedComplete sampleSuccessResult
          (handleBarcodeDetectedStart (startAutoDetection initialCaptureState))).showModeSelection
        = false
      ∧ (autoDetectionTimeoutHandler (startAutoDetection initialCaptureState)
          (handleBarcodeDetectedComplete sampleSuccessResult
            (handleBarcodeDetectedStart (startAutoDetection initialCaptureState)))).showModeSelection
        = true
      ∧ (handleBarcodeDetectedComplete sampleSuccessResult
          (handleBarcodeDetectedStart
            (autoDetectionTimeoutHandler (startAutoDetection initialCaptureState)
              (handleBarcodeDetectedComplete sampleSuccessResult
                (handleBarcodeDetectedStart (startAutoDetection initialCaptureState)))))).showModeSelection
        = false :=
  ⟨rfl, rfl, rfl, rfl, rfl⟩

/-- C1 (amended). The timeout callback's guard reads the state snapshot
captured when the timeout was armed, not the live state at fire time: for a
session armed by startAutoDetection (snapshot has auto-detection incomplete
and no lookup result) the guard always passes, so when the timeout fires the
manual mode selection is shown, scanning stopped and auto-detection marked
complete regardless of the live state - in particular even when a detection
result already arrived during the window; the timeout effects are suppressed
only when the armed snapshot itself already carried a result or a completed
auto-detection. The detection side performs no completed-check at all:
a successful lookup completing after the timeout stores its result and sets
showModeSelection to false, overriding the shown manual selection. -/
theorem C1_auto_detection_race :
    (∀ armed live : CaptureState,
        armed.autoDetectionComplete = false → armed.lookupResult = none →
          (autoDetectionTimeoutHandler armed live).showModeSelection = true
            ∧ (autoDetectionTimeoutHandler armed live).autoDetectionComplete = true
            ∧ (autoDetectionTimeoutHandler armed live).scanningActive = false)
      ∧ (∀ live : CaptureState,
          (autoDetectionTimeoutHandler (startAutoDetection initialCaptureState)
            live).showModeSelection = true)
      ∧ (∀ armed live : CaptureState,
          (armed.lookupResult ≠ none ∨ armed.autoDetectionComplete = true) →
            autoDetectionTimeoutHandler armed live = live)
      ∧ (∀ (st : CaptureState) (r : LookupResult), r.success = true →
          (handleBarcodeDetectedComplete r st).showModeSelection = false
            ∧ (handleBarcodeDetectedComplete r st).lookupResult = some r) := by
  refine ⟨?_, ?_, ?_, ?_⟩
  · intro armed live h1 h2
    simp [autoDetectionTimeoutHandler, h1, h2]
  · intro live
    simp [autoDetectionTimeoutHandler, startAutoDetection, initialCaptureState]
  · intro armed live h
    rw [autoDetectionTimeoutHandler, if_neg]
    rintro ⟨h1, h2⟩
    rcases h with h | h
    · exact h h2
    · rw [h] at h1
      exact Bool.noConfusion h1
  · intro st r hr
    simp [handleBarcodeDetectedComplete, hr]

/-- Witness for C1: the timeout armed on a fresh session shows the manual
selection even on a live state that already holds the successful lookup
result; a timeout whose armed snapshot carried a result leaves the live
state untouched; a successful result processed on the post-timeout state
hides the manual selection again. -/
theorem C1_auto_detection_race_witness :
    (autoDetectionTimeoutHandler (startAutoDetection initialCaptureState)
        (handleBarcodeDetectedComplete sampleSuccessResult
          (startAutoDetection initialCaptureState))).showModeSelection = true
      ∧ autoDetectionTimeoutHandler
          { initialCaptureState with lookupResult := some sampleSuccessResult }
          initialCaptureState
        = initialCaptureState
      ∧ (handleBarcodeDetectedComplete sampleSuccessResult
          (autoDetectionTimeoutHandler (startAutoDetection initialCaptureState)
            initialCaptureState)).showModeSelection = false :=
  ⟨(C1_auto_detection_race.1 _ _ rfl rfl).1,
    C1_auto_detection_race.2.2.1 _ _ (Or.inl (by simp)),
    (C1_auto_detection_race.2.2.2 _ sampleSuccessResult rfl).1⟩

/-- Closed form of the scan loop on a source that never detects anything:
scanCount stays 0 because detectBarcodeOnce increments it only on the
success path, so the attempt ceiling can never be reached. -/
theorem runScanLoop_allNotFound (m n : ℕ) :
    runScanLoop m allNotFound n = ⟨0, false, none, none, true, n, false⟩ := by
  induction n with
  | zero => rfl
  | succ n ih =>
    rw [runScanLoop, ih]
    have hm : ¬(0 < m ∧ m ≤ 0) := by omega
    simp [continuousScanStep, allNotFound, detectOnceEffect, hm]
    omega

/-- C2 (code bug). On a video source where no barcode is ever detected,
the scan-attempt counter never advances: detectBarcodeOnce increments
scanCount only on the success path, so after any number n of decode attempts
(including n greater than the ceiling, for any maxScanAttempts and in
particular the default 10) scanning is still active, scanCount is still 0
and the max-attempts signal has never been raised - the loop never halts by
itself, contradicting the claim that it stops after exactly maxScanAttempts
attempts with an attempts-exceeded signal. -/
theorem C2_scan_ceiling_never_reached :
    ∀ (m n : ℕ),
      (runScanLoop m allNotFound n).attemptsMade = n
        ∧ (runScanLoop m allNotFound n).scanCount = 0
        ∧ (runScanLoop m allNotFound n).continuousActive = true
        ∧ (runScanLoop m allNotFound n).maxAttemptsSignaled = false := by
  intro m n
  rw [runScanLoop_allNotFound]
  exact ⟨rfl, rfl, rfl, rfl⟩

/-! Lemmas about the lookup-service state. -/

theorem getCachedProduct_queue_eq (st : ServiceState) (b : String) (t : ℤ) :
    ((getCachedProduct st b t).2).requestQueue = st.requestQueue
      ∧ ((getCachedProduct st b t).2).underlyingLookups = st.underlyingLookups := by
  rw [getCachedProduct]
  cases lookupKey st.cache b with
  | none => exact ⟨rfl, rfl⟩
  | some e =>
    dsimp only
    split_ifs <;> exact ⟨rfl, rfl⟩

theorem getCachedProduct_none_key (st : ServiceState) (b : String) (t : ℤ)
    (h : (getCachedProduct st b t).1 = none) :
    lookupKey ((getCachedProduct st b t).2).cache b = none := by
  rw [getCachedProduct] at h ⊢
  cases hk : lookupKey st.cache b with
  | none =>
    dsimp only
    exact hk
  | some e =>
    rw [hk] at h
    dsimp only at h ⊢
    by_cases hex : cacheMaxAge < t - e.timestamp
    · rw [if_pos hex]
      dsimp only
      exact lookupKey_eraseKey_self st.cache b
    · rw [if_neg hex] at h
      exact absurd h (by simp)

theorem cacheProduct_queue_eq (st : ServiceState) (b : String) (p : EnhancedProductData)
    (t : ℤ) : (cacheProduct st b p t).requestQueue = st.requestQueue := by
  rw [cacheProduct]
  split_ifs <;> rfl

theorem lookupEntry_startedNew (st : ServiceState) (b : String) (now : ℤ) (c : Bool)
    (hval : validateBarcode b = true)
    (hmiss : c = true → (getCachedProduct st b now).1 = none)
    (hnq : b ∉ st.requestQueue) :
    lookupEntry st b now c =
      (EntryOutcome.startedNew,
        ⟨(if c then (getCachedProduct st b now).2 else st).cache,
          b :: (if c then (getCachedProduct st b now).2 else st).requestQueue,
          (if c then (getCachedProduct st b now).2 else st).underlyingLookups + 1⟩) := by
  cases c with
  | false =>
    simp only [lookupEntry, hval, Bool.true_eq_false, if_false]
    simp [hnq]
  | true =>
    have hq := (getCachedProduct_queue_eq st b now).1
    rcases hpair : getCachedProduct st b now with ⟨o, st2⟩
    have ho : o = none := by
      have := hmiss rfl
      rw [hpair] at this
      exact this
    subst ho
    have hq2 : st2.requestQueue = st.requestQueue := by rw [hpair] at hq; exact hq
    simp only [lookupEntry, hval, Bool.true_eq_false, if_false, hpair, if_true]
    rw [hq2]
    simp [hnq]

theorem lookupEntry_joined (st : ServiceState) (b : String) (now : ℤ) (c : Bool)
    (hval : validateBarcode b = true)
    (hkey : c = true → lookupKey st.cache b = none)
    (hinq : b ∈ st.requestQueue) :
    lookupEntry st b now c = (EntryOutcome.joinedExisting, st) := by
  cases c with
  | false =>
    simp only [lookupEntry, hval, Bool.true_eq_false, if_false]
    simp [hinq]
  | true =>
    have hgc : getCachedProduct st b now = (none, st) := by
      rw [getCachedProduct, hkey rfl]
    simp only [lookupEntry, hval, Bool.true_eq_false, if_false, hgc, if_true]
    simp [hinq]

/-- C3. Two lookupByBarcode calls for the same barcode issued before either
resolves trigger exactly one underlying lookup: on a fresh state the first
call starts a new underlying request (incrementing the ghost counter) and
enqueues the barcode, and the second call, arriving while the first is still
queued, joins the existing request without touching the counter. The request
queue is a map keyed by barcode; entry and completion preserve its
no-duplicates invariant, so at most one in-flight request per barcode ever
exists. -/
theorem C3_request_dedup :
    (∀ (st : ServiceState) (b : String) (now₁ now₂ : ℤ) (c : Bool),
        validateBarcode b = true →
        (getCachedProduct st b now₁).1 = none →
        b ∉ st.requestQueue →
          (lookupEntry st b now₁ c).1 = EntryOutcome.startedNew
            ∧ (lookupEntry st b now₁ c).2.underlyingLookups = st.underlyingLookups + 1
            ∧ (lookupEntry (lookupEntry st b now₁ c).2 b now₂ c).1
              = EntryOutcome.joinedExisting
            ∧ (lookupEntry (lookupEntry st b now₁ c).2 b now₂ c).2.underlyingLookups
              = st.underlyingLookups + 1)
      ∧ (∀ (st : ServiceState) (b : String) (now : ℤ) (c : Bool),
          st.requestQueue.Nodup → (lookupEntry st b now c).2.requestQueue.Nodup)
      ∧ (∀ (st : ServiceState) (b : String) (r : LookupResult) (c : Bool) (now : ℤ),
          st.requestQueue.Nodup → (lookupComplete st b r c now).requestQueue.Nodup) := by
  refine ⟨?_, ?_, ?_⟩
  · intro st b now₁ now₂ c hval hmiss hnq
    have h1 := lookupEntry_startedNew st b now₁ c hval (fun _ => hmiss) hnq
    have hbu : (if c then (getCachedProduct st b now₁).2 else st).underlyingLookups
        = st.underlyingLookups := by
      cases c with
      | false => simp
      | true => simpa using (getCachedProduct_queue_eq st b now₁).2
    have hbc : c = true →
        lookupKey (if c then (getCachedProduct st b now₁).2 else st).cache b = none := by
      intro hc
      subst hc
      simpa using getCachedProduct_none_key st b now₁ hmiss
    have h2 := lookupEntry_joined
      ⟨(if c then (getCachedProduct st b now₁).2 else st).cache,
        b :: (if c then (getCachedProduct st b now₁).2 else st).requestQueue,
        (if c then (getCachedProduct st b now₁).2 else st).underlyingLookups + 1⟩
      b now₂ c hval (fun hc => hbc hc) (List.mem_cons_self _ _)
    rw [h1]
    dsimp only
    refine ⟨rfl, by rw [hbu], ?_, ?_⟩
    · rw [h2]
    · rw [h2]
      dsimp only
      rw [hbu]
  · intro st b now c hnd
    rw [lookupEntry]
    by_cases hval : validateBarcode b = false
    · simp [hval, hnd]
    · rw [if_neg hval]
      have hq2 : (if c = true then getCachedProduct st b now else (none, st)).2.requestQueue
          = st.requestQueue := by
        cases c with
        | false => simp
        | true => simpa using (getCachedProduct_queue_eq st b now).1
      rcases hpair : (if c = true then getCachedProduct st b now else (none, st)) with ⟨o, st2⟩
      rw [hpair] at hq2
      dsimp only at hq2
      cases o with
      | some hit => simpa [hq2] using hnd
      | none =>
        dsimp only
        by_cases hin : b ∈ st2.requestQueue
        · rw [if_pos hin]
          simpa [hq2] using hnd
        · rw [if_neg hin]
          dsimp only
          rw [List.nodup_cons, hq2]
          rw [hq2] at hin
          exact ⟨hin, hnd⟩
  · intro st b r c now hnd
    rw [lookupComplete]
    cases r.product with
    | none => exact hnd.erase b
    | some p =>
      dsimp only
      by_cases hcc : r.success && c
      · simp only [hcc, if_true]
        exact (by simpa [cacheProduct_queue_eq] using hnd : (cacheProduct st b p now).requestQueue.Nodup).erase b
      · simp only [hcc, if_false]
        exact hnd.erase b

/-- Witness for C3: on the empty service state, the first lookup of the
sample barcode starts the single underlying request and the concurrent
second lookup joins it. -/
theorem C3_request_dedup_witness :
    (lookupEntry ⟨[], [], 0⟩ "049000028911" 0 true).1 = EntryOutcome.startedNew
      ∧ (lookupEntry (lookupEntry ⟨[], [], 0⟩ "049000028911" 0 true).2
          "049000028911" 1 true).1 = EntryOutcome.joinedExisting :=
  ⟨(C3_request_dedup.1 ⟨[], [], 0⟩ "049000028911" 0 1 true (by decide) rfl
      (by simp)).1,
    (C3_request_dedup.1 ⟨[], [], 0⟩ "049000028911" 0 1 true (by decide) rfl
      (by simp)).2.2.1⟩

/-- C4. A lookup with caching enabled immediately after a successful cached
write of barcode B is served from the cache with cached = true and the very
same product data, as long as strictly less than the 24-hour max age has
elapsed; and any cache entry older than the max age is never returned as a
hit - the read reports a miss and evicts the entry. -/
theorem C4_cache_correctness :
    (∀ (st : ServiceState) (b : String) (p : EnhancedProductData) (t₁ t₂ : ℤ),
        validateBarcode b = true →
        t₂ - t₁ < cacheMaxAge →
          (getCachedProduct (cacheProduct st b p t₁) b t₂).1 = some p
            ∧ (lookupEntry (cacheProduct st b p t₁) b t₂ true).1
              = EntryOutcome.cacheHit (successResult { p with cached := true }))
      ∧ (∀ (st : ServiceState) (b : String) (e : CacheEntry) (t₂ : ℤ),
          lookupKey st.cache b = some e →
          cacheMaxAge < t₂ - e.timestamp →
            (getCachedProduct st b t₂).1 = none
              ∧ lookupKey ((getCachedProduct st b t₂).2).cache b = none) := by
  constructor
  · intro st b p t₁ t₂ hval helapsed
    have hkey : lookupKey (cacheProduct st b p t₁).cache b = some ⟨p, t₁⟩ := by
      rw [cacheProduct]
      split_ifs with hsize
      · refine lookupKey_filter _ b ⟨p, t₁⟩ _ ?_ (lookupKey_setKey_self st.cache b ⟨p, t₁⟩)
        have : ¬(t₁ < t₁ - cacheMaxAge) := by
          have : (0 : ℤ) < cacheMaxAge := by decide
          omega
        simpa using this
      · exact lookupKey_setKey_self st.cache b ⟨p, t₁⟩
    have hfresh : ¬(cacheMaxAge < t₂ - t₁) := by omega
    have hget : getCachedProduct (cacheProduct st b p t₁) b t₂
        = (some p, cacheProduct st b p t₁) := by
      rw [getCachedProduct, hkey]
      simp [hfresh]
    refine ⟨by rw [hget], ?_⟩
    rw [lookupEntry, if_neg (by simp [hval])]
    simp [hget]
  · intro st b e t₂ hkey hold
    constructor
    · rw [getCachedProduct, hkey]
      simp [hold]
    · exact getCachedProduct_none_key st b t₂ (by rw [getCachedProduct, hkey]; simp [hold])

/-- Witness for C4: writing the sample product at time 0 and reading at time
1000 gives the cache hit with cached = true; a state holding an entry written
at time 0 read just past the max age reports a miss and evicts the entry. -/
theorem C4_cache_correctness_witness :
    (lookupEntry (cacheProduct ⟨[], [], 0⟩ "049000028911"
          (enhanceProductData sampleFullProduct false ProductSource.barcode) 0)
        "049000028911" 1000 true).1
      = EntryOutcome.cacheHit (successResult
          { enhanceProductData sampleFullProduct false ProductSource.barcode with
            cached := true })
      ∧ (getCachedProduct
          ⟨[("049000028911",
              ⟨enhanceProductData sampleFullProduct false ProductSource.barcode, 0⟩)], [], 0⟩
          "049000028911" (cacheMaxAge + 1)).1 = none :=
  ⟨(C4_cache_correctness.1 ⟨[], [], 0⟩ "049000028911"
      (enhanceProductData sampleFullProduct false ProductSource.barcode) 0 1000
      (by decide) (by decide)).2,
    (C4_cache_correctness.2 ⟨[("049000028911",
        ⟨enhanceProductData sampleFullProduct false ProductSource.barcode, 0⟩)], [], 0⟩
      "049000028911" ⟨enhanceProductData sampleFullProduct false ProductSource.barcode, 0⟩
      (cacheMaxAge + 1) rfl (by decide)).1⟩

/-! Lemmas about the performLookup retry loop. -/

theorem raceOutcome_of_raceIsError (a : NetAttempt) (T : ℕ) (h : raceIsError a T = true) :
    raceOutcome a T = Except.error (raceErrMsg a T) := by
  rw [raceIsError] at h
  rw [raceErrMsg]
  cases hr : raceOutcome a T with
  | ok p => rw [hr] at h; exact Bool.noConfusion h
  | error m => rfl

theorem performLookupGo_attempts_le (net : ℕ → NetAttempt) (T : ℕ) (rhq : Bool) (R : ℕ) :
    ∀ (fuel attempt : ℕ) (lastErr : Option String),
      (performLookupGo net T rhq R attempt fuel lastErr).attempts ≤ fuel := by
  intro fuel
  induction fuel with
  | zero => intro attempt lastErr; simp [performLookupGo]
  | succ f ih =>
    intro attempt lastErr
    rw [performLookupGo]
    cases hr : raceOutcome (net attempt) T with
    | ok p =>
      cases p with
      | none => simp
      | some product =>
        dsimp only
        split_ifs <;> simp
    | error m =>
      dsimp only
      have := ih (attempt + 1) (some m)
      omega

theorem backoff_range_shift (attempt k : ℕ) :
    backoffDelay attempt :: (List.range k).map (fun j => backoffDelay (attempt + 1 + j))
      = (List.range (k + 1)).map (fun j => backoffDelay (attempt + j)) := by
  rw [List.range_succ_eq_map, List.map_cons, List.map_map]
  rw [List.cons.injEq]
  refine ⟨by rw [Nat.add_zero], ?_⟩
  apply List.map_congr_left
  intro j hj
  simp only [Function.comp_apply]
  rw [show attempt + 1 + j = attempt + (j + 1) by omega]

theorem performLookupGo_notFound (net : ℕ → NetAttempt) (T : ℕ) (rhq : Bool) (R : ℕ) :
    ∀ (k fuel attempt : ℕ) (lastErr : Option String),
      k < fuel →
      (∀ j, j < k → raceIsError (net (attempt + j)) T = true) →
      raceOutcome (net (attempt + k)) T = Except.ok none →
      (∀ j, j < k → attempt + j < R) →
      performLookupGo net T rhq R attempt fuel lastErr =
        ⟨notFoundResult, k + 1, (List.range k).map (fun j => backoffDelay (attempt + j))⟩ := by
  intro k
  induction k with
  | zero =>
    intro fuel attempt lastErr hk herr hok hlt
    cases fuel with
    | zero => omega
    | succ f =>
      rw [performLookupGo]
      rw [show attempt + 0 = attempt from rfl] at hok
      rw [hok]
      simp
  | succ k ih =>
    intro fuel attempt lastErr hk herr hok hlt
    cases fuel with
    | zero => omega
    | succ f =>
      rw [performLookupGo]
      have h0 : raceIsError (net attempt) T = true := by
        have := herr 0 (by omega)
        simpa using this
      rw [raceOutcome_of_raceIsError _ _ h0]
      dsimp only
      have hrest := ih f (attempt + 1) (some (raceErrMsg (net attempt) T)) (by omega)
        (fun j hj => by
          have := herr (j + 1) (by omega)
          rw [show attempt + (j + 1) = attempt + 1 + j by omega] at this
          exact this)
        (by
          have := hok
          rw [show attempt + (k + 1) = attempt + 1 + k by omega] at this
          exact this)
        (fun j hj => by
          have := hlt (j + 1) (by omega)
          omega)
      rw [hrest]
      have hdel : attempt < R := by
        have := hlt 0 (by omega)
        omega
      rw [if_pos hdel]
      rw [List.singleton_append, backoff_range_shift]

theorem performLookupGo_all_errors (net : ℕ → NetAttempt) (T : ℕ) (rhq : Bool) (R : ℕ) :
    ∀ (fuel attempt : ℕ) (lastErr : Option String),
      0 < fuel →
      (∀ j, j < fuel → raceIsError (net (attempt + j)) T = true) →
      (∀ j, j < fuel → ((attempt + j < R) ↔ (j + 1 < fuel))) →
      performLookupGo net T rhq R attempt fuel lastErr =
        ⟨networkFailureResult (some (raceErrMsg (net (attempt + (fuel - 1))) T)),
          fuel, (List.range (fuel - 1)).map (fun j => backoffDelay (attempt + j))⟩ := by
  intro fuel
  induction fuel with
  | zero => intro attempt lastErr h; omega
  | succ f ih =>
    intro attempt lastErr hpos herr hiff
    have h0 : raceIsError (net attempt) T = true := by
      have := herr 0 (by omega)
      simpa using this
    rw [performLookupGo, raceOutcome_of_raceIsError _ _ h0]
    dsimp only
    cases f with
    | zero =>
      rw [performLookupGo]
      have hnd : ¬(attempt < R) := by
        have := hiff 0 (by omega)
        simp at this
        omega
      rw [if_neg hnd]
      simp
    | succ f2 =>
      have hrest := ih (attempt + 1) (some (raceErrMsg (net attempt) T)) (by omega)
        (fun j hj => by
          have := herr (j + 1) (by omega)
          rw [show attempt + (j + 1) = attempt + 1 + j by omega] at this
          exact this)
        (fun j hj => by
          have h1 := hiff (j + 1) (by omega)
          constructor
          · intro hlt
            have : attempt + (j + 1) < R := by omega
            have := h1.mp this
            omega
          · intro hlt
            have : attempt + (j + 1) < R := h1.mpr (by omega)
            omega)
      rw [hrest]
      have hdel : attempt < R := (hiff 0 (by omega)).mpr (by omega)
      rw [if_pos hdel]
      simp only [Nat.add_sub_cancel]
      rw [List.singleton_append, backoff_range_shift]
      rw [show attempt + (f2 + 1) = attempt + 1 + f2 by omega]

/-- C6. performLookup makes at most maxRetries + 1 attempts; every attempt is
bounded by timeoutMs through the race against the timeout rejection (an
attempt settling at or after timeoutMs yields the Request-timeout error); a
null (not-found) response on any attempt ends the loop immediately with the
not-found failure, with no further attempt and no further backoff wait, so
not-found is never retried; only rejected (network or timeout) attempts are
retried, waiting 2^attempt seconds between attempts, and when every attempt
rejects the result is the network failure carrying the last error with the
network fallback suggestions. -/
theorem C6_lookup_retry_policy :
    (∀ (net : ℕ → NetAttempt) (T : ℕ) (rhq : Bool) (R : ℕ),
        (performLookup net T rhq R).attempts ≤ R + 1)
      ∧ (∀ (a : NetAttempt) (T : ℕ), T ≤ netTime a →
          raceOutcome a T = Except.error "Request timeout")
      ∧ (∀ (net : ℕ → NetAttempt) (T : ℕ) (rhq : Bool) (R k : ℕ),
          k ≤ R →
          (∀ j, j < k → raceIsError (net j) T = true) →
          raceOutcome (net k) T = Except.ok none →
            performLookup net T rhq R =
              ⟨notFoundResult, k + 1, (List.range k).map backoffDelay⟩)
      ∧ (∀ (net : ℕ → NetAttempt) (T : ℕ) (rhq : Bool) (R : ℕ),
          (∀ j, j ≤ R → raceIsError (net j) T = true) →
            performLookup net T rhq R =
              ⟨networkFailureResult (some (raceErrMsg (net R) T)),
                R + 1, (List.range R).map backoffDelay⟩) := by
  refine ⟨?_, ?_, ?_, ?_⟩
  · intro net T rhq R
    exact performLookupGo_attempts_le net T rhq R (R + 1) 0 none
  · intro a T h
    cases a with
    | resolves p t =>
      rw [raceOutcome, if_neg (by simp [netTime] at h; omega)]
    | rejects m t =>
      rw [raceOutcome, if_neg (by simp [netTime] at h; omega)]
  · intro net T rhq R k hk herr hok
    rw [performLookup]
    rw [performLookupGo_notFound net T rhq R k (R + 1) 0 none (by omega)
      (fun j hj => by simpa using herr j hj) (by simpa using hok)
      (fun j hj => by omega)]
    have hfun : (fun j => backoffDelay (0 + j)) = backoffDelay := by
      funext j
      rw [Nat.zero_add]
    rw [hfun]
  · intro net T rhq R herr
    rw [performLookup]
    rw [performLookupGo_all_errors net T rhq R (R + 1) 0 none (by omega)
      (fun j hj => by simpa using herr j (by omega))
      (fun j hj => by omega)]
    have hfun : (fun j => backoffDelay (0 + j)) = backoffDelay := by
      funext j
      rw [Nat.zero_add]
    rw [hfun]
    simp only [Nat.add_sub_cancel, Nat.zero_add]

/-- Witness for C6: a lookup whose first attempt resolves null within the
timeout returns the not-found failure after exactly one attempt with no
backoff waits; an attempt settling after the timeout is raced into the
Request-timeout error. -/
theorem C6_lookup_retry_policy_witness :
    performLookup (fun _ => NetAttempt.resolves none 100) 5000 false 2
        = ⟨notFoundResult, 1, []⟩
      ∧ raceOutcome (NetAttempt.resolves none 6000) 5000
        = Except.error "Request timeout" :=
  ⟨by
    have h := C6_lookup_retry_policy.2.2.1 (fun _ => NetAttempt.resolves none 100)
      5000 false 2 0 (by omega) (fun j hj => absurd hj (Nat.not_lt_zero j)) rfl
    simpa using h,
    C6_lookup_retry_policy.2.1 (NetAttempt.resolves none 6000) 5000 (by decide)⟩

/-! Lemmas about the resource manager. -/

theorem registeredCleanup_ok (r : ManagedResource) : registeredCleanup r = Except.ok () := by
  rw [registeredCleanup, releaseUnderlying]
  split_ifs <;> rfl

theorem cleanup_resources (st : RMState) (id : String) :
    ((RMState.cleanup st id).2).resources = eraseKey st.resources id := by
  rw [RMState.cleanup]
  cases hk : lookupKey st.resources id with
  | none =>
    dsimp only
    exact (eraseKey_of_lookupKey_none st.resources id hk).symm
  | some r =>
    dsimp only
    rw [registeredCleanup_ok r]

theorem foldl_cleanup_eraseKeys (L : List String) :
    ∀ st : RMState,
      ((L.foldl (fun acc id => (RMState.cleanup acc id).2) st)).resources
        = L.foldl (fun l id => eraseKey l id) st.resources := by
  induction L with
  | nil => intro st; rfl
  | cons k ks ih =>
    intro st
    rw [List.foldl_cons, List.foldl_cons, ih, cleanup_resources]

theorem foldl_eraseKey_all {α : Type} :
    ∀ (L : List String) (l : List (String × α)),
      (∀ p ∈ l, p.1 ∈ L) → L.foldl (fun acc k => eraseKey acc k) l = [] := by
  intro L
  induction L with
  | nil =>
    intro l h
    cases l with
    | nil => rfl
    | cons p rest => exact absurd (h p (List.mem_cons_self p rest)) (List.not_mem_nil p.1)
  | cons k ks ih =>
    intro l h
    rw [List.foldl_cons]
    apply ih
    intro p hp
    rw [eraseKey, List.mem_filter] at hp
    have h1 := h p hp.1
    have h2 : p.1 ≠ k := by simpa using hp.2
    rcases List.mem_cons.mp h1 with h3 | h3
    · exact absurd h3 h2
    · exact h3

theorem cleanupAll_resources (st : RMState) : ((RMState.cleanupAll st).2).resources = [] := by
  rw [RMState.cleanupAll]
  dsimp only
  rw [foldl_cleanup_eraseKeys]
  apply foldl_eraseKey_all
  intro p hp
  exact List.mem_map_of_mem Prod.fst hp

/-- C8. ResourceManager release semantics: releasing an unregistered id (and
an already-released id) returns the not-found indication false and leaves the
state unchanged, never throwing (the whole method is total, with the closure
exception channel caught inside it); a release whose underlying release
action fails is caught by the registered closure, never propagated, and the
bookkeeping entry is still removed (the conjunct holds for every registered
resource, including those with releaseFails = true); and releaseAll followed
by a second releaseAll is safe and reports zero resources the second time. -/
theorem C8_release_error_handling :
    (∀ (st : RMState) (id : String), lookupKey st.resources id = none →
        RMState.cleanup st id = (false, st))
      ∧ (∀ (st : RMState) (id : String) (r : ManagedResource),
          lookupKey st.resources id = some r →
            (RMState.cleanup st id).1 = true
              ∧ lookupKey ((RMState.cleanup st id).2).resources id = none
              ∧ RMState.cleanup (RMState.cleanup st id).2 id
                = (false, (RMState.cleanup st id).2))
      ∧ (∀ st : RMState,
          ((RMState.cleanupAll st).2).resources = []
            ∧ (RMState.cleanupAll ((RMState.cleanupAll st).2)).1 = 0) := by
  refine ⟨?_, ?_, ?_⟩
  · intro st id h
    rw [RMState.cleanup, h]
  · intro st id r h
    have hres : ((RMState.cleanup st id).2).resources = eraseKey st.resources id :=
      cleanup_resources st id
    have hnone : lookupKey ((RMState.cleanup st id).2).resources id = none := by
      rw [hres]
      exact lookupKey_eraseKey_self st.resources id
    refine ⟨?_, hnone, ?_⟩
    · rw [RMState.cleanup, h]
      dsimp only
      rw [registeredCleanup_ok r]
    · rw [RMState.cleanup, hnone]
  · intro st
    refine ⟨cleanupAll_resources st, ?_⟩
    rw [RMState.cleanupAll]
    rw [cleanupAll_resources st]
    rfl

/-- Witness for C8: releasing an unknown id on the empty manager reports not
found; releasing a registered stream whose underlying stop throws still
succeeds and removes the entry; a second full cleanup reports zero. -/
theorem C8_release_error_handling_witness :
    RMState.cleanup ⟨[]⟩ "ghost" = (false, ⟨[]⟩)
      ∧ (RMState.cleanup ⟨[("cam", ⟨ResourceType.mediaStream, true⟩)]⟩ "cam").1 = true
      ∧ lookupKey ((RMState.cleanup
          ⟨[("cam", ⟨ResourceType.mediaStream, true⟩)]⟩ "cam").2).resources "cam" = none
      ∧ (RMState.cleanupAll
          ((RMState.cleanupAll ⟨[("cam", ⟨ResourceType.mediaStream, true⟩)]⟩).2)).1 = 0 :=
  ⟨C8_release_error_handling.1 ⟨[]⟩ "ghost" rfl,
    (C8_release_error_handling.2.1 ⟨[("cam", ⟨ResourceType.mediaStream, true⟩)]⟩ "cam"
      ⟨ResourceType.mediaStream, true⟩ rfl).1,
    (C8_release_error_handling.2.1 ⟨[("cam", ⟨ResourceType.mediaStream, true⟩)]⟩ "cam"
      ⟨ResourceType.mediaStream, true⟩ rfl).2.1,
    (C8_release_error_handling.2.2 ⟨[("cam", ⟨ResourceType.mediaStream, true⟩)]⟩).2⟩

/-- C9. startCamera first tears down any existing stream (the previously
registered id is gone from the resource map), succeeds under optimal
constraints registering the stream under the fixed id primary_camera
(ignoring the minimal attempt entirely), falls back exactly once to minimal
constraints registering under the fixed id fallback_camera, and when both
attempts fail raises the classified CameraError derived from the fallback
failure - always one of the six fixed classified errors, never a raw
platform error; a permission denial (NotAllowedError) maps to the
permission-denied error with fallbackAvailable = true. -/
theorem C9_start_camera :
    (∀ (st : CamState) (oldId : String), st.activeStreamId = some oldId →
        lookupKey ((stopCamera st).rm).resources oldId = none)
      ∧ (∀ (st : CamState) (minimalAttempt : Except String Unit),
          startCamera st (Except.ok ()) minimalAttempt =
            Except.ok
              ⟨some "primary_camera",
                RMState.register (stopCamera st).rm "primary_camera"
                  ⟨ResourceType.mediaStream, false⟩⟩)
      ∧ (∀ (st : CamState) (e1 : String),
          startCamera st (Except.error e1) (Except.ok ()) =
            Except.ok
              ⟨some "fallback_camera",
                RMState.register (stopCamera st).rm "fallback_camera"
                  ⟨ResourceType.mediaStream, false⟩⟩)
      ∧ (∀ (rm : RMState) (id : String) (r : ManagedResource),
          lookupKey (RMState.register rm id r).resources id = some r)
      ∧ (∀ (st : CamState) (e1 e2 : String),
          startCamera st (Except.error e1) (Except.error e2)
              = Except.error (createCameraError e2)
            ∧ createCameraError e2 ∈ classifiedCameraErrors)
      ∧ (createCameraError "NotAllowedError").name = "NotAllowedError"
      ∧ (createCameraError "NotAllowedError").fallbackAvailable = true := by
  refine ⟨?_, ?_, ?_, ?_, ?_, rfl, rfl⟩
  · intro st oldId h
    rw [stopCamera, h]
    dsimp only
    rw [cleanup_resources]
    exact lookupKey_eraseKey_self _ oldId
  · intro st minimalAttempt
    rfl
  · intro st e1
    rfl
  · intro rm id r
    rw [RMState.register]
    exact lookupKey_setKey_self rm.resources id r
  · intro st e1 e2
    refine ⟨rfl, ?_⟩
    rw [createCameraError]
    split_ifs <;> decide

/-- Witness for C9: stopping a camera whose stream is registered removes the
registration. -/
theorem C9_start_camera_witness :
    lookupKey ((stopCamera
        ⟨some "primary_camera",
          ⟨[("primary_camera", ⟨ResourceType.mediaStream, false⟩)]⟩⟩).rm).resources
      "primary_camera" = none :=
  C9_start_camera.1
    ⟨some "primary_camera", ⟨[("primary_camera", ⟨ResourceType.mediaStream, false⟩)]⟩⟩
    "primary_camera" rfl

/-! Lemmas about meal storage. -/

theorem foldl_addNutrition (entries : List MealEntry) :
    ∀ acc : Nutrition,
      entries.foldl (fun t e => addNutrition t e.nutrition) acc =
        ⟨acc.calories + (entries.map (fun e => e.nutrition.calories)).sum,
          acc.carbs + (entries.map (fun e => e.nutrition.carbs)).sum,
          acc.fat + (entries.map (fun e => e.nutrition.fat)).sum,
          acc.protein + (entries.map (fun e => e.nutrition.protein)).sum,
          acc.fiber + (entries.map (fun e => e.nutrition.fiber)).sum⟩ := by
  induction entries with
  | nil =>
    intro acc
    cases acc
    simp
  | cons e es ih =>
    intro acc
    rw [List.foldl_cons, ih]
    simp only [addNutrition, List.map_cons, List.sum_cons]
    rw [Nutrition.mk.injEq]
    refine ⟨by ring, by ring, by ring, by ring, by ring⟩

theorem calculateMealNutrition_eq (entries : List MealEntry) :
    calculateMealNutrition entries =
      ⟨(entries.map (fun e => e.nutrition.calories)).sum,
        (entries.map (fun e => e.nutrition.carbs)).sum,
        (entries.map (fun e => e.nutrition.fat)).sum,
        (entries.map (fun e => e.nutrition.protein)).sum,
        (entries.map (fun e => e.nutrition.fiber)).sum⟩ := by
  rw [calculateMealNutrition, foldl_addNutrition]
  simp [zeroNutrition]

theorem nutritionInvariant_recompute (base : Meal) (es : List MealEntry) :
    nutritionInvariant
      { base with entries := es, totalNutrition := calculateMealNutrition es } :=
  calculateMealNutrition_eq es

theorem mem_replaceMealById (meals : List Meal) (mid : String) (meal : Meal) :
    ∀ m ∈ replaceMealById meals mid meal, m ∈ meals ∨ m = meal := by
  induction meals with
  | nil =>
    intro m hm
    exact absurd hm (List.not_mem_nil m)
  | cons m0 rest ih =>
    intro m hm
    rw [replaceMealById] at hm
    by_cases h0 : m0.id = mid
    · rw [if_pos h0] at hm
      rcases List.mem_cons.mp hm with h | h
      · exact Or.inr h
      · exact Or.inl (List.mem_cons_of_mem m0 h)
    · rw [if_neg h0] at hm
      rcases List.mem_cons.mp hm with h | h
      · exact Or.inl (h ▸ List.mem_cons_self m0 rest)
      · rcases ih m h with h2 | h2
        · exact Or.inl (List.mem_cons_of_mem m0 h2)
        · exact Or.inr h2

theorem mem_replaceMealById_self (meal : Meal) (mid : String) :
    ∀ meals : List Meal, (∃ m0 ∈ meals, m0.id = mid) →
      meal ∈ replaceMealById meals mid meal := by
  intro meals
  induction meals with
  | nil =>
    rintro ⟨m0, hm0, _⟩
    exact absurd hm0 (List.not_mem_nil m0)
  | cons m0 rest ih =>
    rintro ⟨m1, hm1, hid⟩
    rw [replaceMealById]
    by_cases h0 : m0.id = mid
    · rw [if_pos h0]
      exact List.mem_cons_self _ _
    · rw [if_neg h0]
      refine List.mem_cons_of_mem m0 (ih ⟨m1, ?_, hid⟩)
      rcases List.mem_cons.mp hm1 with rfl | h
      · exact absurd hid h0
      · exact h

/-- C10. After each addFoodToMeal the affected meal (the returned one)
satisfies the invariant that its stored totals equal the component-wise sums
of its entries, because the totals are recomputed from the entry list; after
addFoodToMeal or removeFoodFromMeal every meal in the stored list is either
an untouched input meal or satisfies that invariant; and after a
removeFoodFromMeal that finds its meal, the call reports true, the stored
list is the input list with the affected meal replaced by the rebuilt one,
that rebuilt meal is in the stored list, and its recomputed totals satisfy
the invariant. -/
theorem C10_meal_totals :
    (∀ (meals : List Meal) (product : EnhancedProductData) (mealType : MealType)
        (servings : ℚ) (totalN : Nutrition) (today newMealId newEntryId : String)
        (nowMs : ℤ),
        nutritionInvariant
          (addFoodToMeal meals product mealType servings totalN today
            newMealId newEntryId nowMs).1)
      ∧ (∀ (meals : List Meal) (product : EnhancedProductData) (mealType : MealType)
          (servings : ℚ) (totalN : Nutrition) (today newMealId newEntryId : String)
          (nowMs : ℤ),
          ∀ m ∈ (addFoodToMeal meals product mealType servings totalN today
            newMealId newEntryId nowMs).2, m ∈ meals ∨ nutritionInvariant m)
      ∧ (∀ (meals : List Meal) (mealId entryId : String),
          ∀ m ∈ (removeFoodFromMeal meals mealId entryId).2,
            m ∈ meals ∨ nutritionInvariant m)
      ∧ (∀ (meals : List Meal) (mealId entryId : String) (meal : Meal),
          meals.find? (fun m => decide (m.id = mealId)) = some meal →
            (removeFoodFromMeal meals mealId entryId).1 = true
              ∧ (removeFoodFromMeal meals mealId entryId).2
                = replaceMealById meals mealId (removedMeal meal entryId)
              ∧ removedMeal meal entryId ∈ (removeFoodFromMeal meals mealId entryId).2
              ∧ nutritionInvariant (removedMeal meal entryId)) := by
  refine ⟨?_, ?_, ?_, ?_⟩
  · intro meals product mealType servings totalN today newMealId newEntryId nowMs
    rw [addFoodToMeal]
    dsimp only
    exact nutritionInvariant_recompute (getOrCreateMeal meals mealType today newMealId) _
  · intro meals product mealType servings totalN today newMealId newEntryId nowMs m hm
    rw [addFoodToMeal] at hm
    dsimp only at hm
    split at hm
    · rcases mem_replaceMealById _ _ _ m hm with h | rfl
      · exact Or.inl h
      · exact Or.inr
          (nutritionInvariant_recompute (getOrCreateMeal meals mealType today newMealId) _)
    · rcases List.mem_append.mp hm with h | h
      · exact Or.inl h
      · rcases List.mem_singleton.mp h with rfl
        exact Or.inr
          (nutritionInvariant_recompute (getOrCreateMeal meals mealType today newMealId) _)
  · intro meals mealId entryId m hm
    rw [removeFoodFromMeal] at hm
    cases hf : meals.find? (fun m => decide (m.id = mealId)) with
    | none =>
      rw [hf] at hm
      exact Or.inl hm
    | some meal =>
      rw [hf] at hm
      dsimp only at hm
      rcases mem_replaceMealById _ _ _ m hm with h | rfl
      · exact Or.inl h
      · exact Or.inr (nutritionInvariant_recompute meal _)
  · intro meals mealId entryId meal hf
    have hmem : meal ∈ meals := List.mem_of_find?_eq_some hf
    have hp := @List.find?_some Meal (fun m => decide (m.id = mealId)) meal meals hf
    have hid : meal.id = mealId := of_decide_eq_true hp
    rw [removeFoodFromMeal, hf]
    dsimp only
    refine ⟨rfl, rfl, ?_, nutritionInvariant_recompute meal _⟩
    exact mem_replaceMealById_self (removedMeal meal entryId) mealId meals ⟨meal, hmem, hid⟩

/-- Witness for C10: adding the sample product to an empty meal list yields a
meal whose stored totals are the sums of its single entry; removing that
entry from the stored sample meal reports true and the rebuilt meal's totals
satisfy the invariant. -/
theorem C10_meal_totals_witness :
    nutritionInvariant
      (addFoodToMeal [] (enhanceProductData sampleFullProduct false ProductSource.barcode)
        MealType.breakfast 1 ⟨250, 50, 12, 20, 7⟩ "2026-10-11" "meal1" "entry1" 0).1
      ∧ (removeFoodFromMeal [sampleMeal] "meal1" "entry1").1 = true
      ∧ nutritionInvariant (removedMeal sampleMeal "entry1") :=
  ⟨C10_meal_totals.1 [] (enhanceProductData sampleFullProduct false ProductSource.barcode)
      MealType.breakfast 1 ⟨250, 50, 12, 20, 7⟩ "2026-10-11" "meal1" "entry1" 0,
    (C10_meal_totals.2.2.2 [sampleMeal] "meal1" "entry1" sampleMeal rfl).1,
    (C10_meal_totals.2.2.2 [sampleMeal] "meal1" "entry1" sampleMeal rfl).2.2.2⟩

end Maestro
